import Mathlib

/-!
Shallow embedding of the execution-trace stepper implemented (in Python,
embedded in `docs/static/pyodide-pdb.js`) by the class `StepDebugger` and
the function `extract_assigned_variables`.

The embedding models:
  * the mini-language the claims exercise (module-level scripts made of
    assignments, `print`, expression statements, list `append`, `pass`
    and `while`, with expressions over int/bool literals, names, list
    displays of integer literals, `sum`, `iter`, `next`, `list` and `/`),
    executed with a mutable heap of list/iterator objects and an
    insertion-ordered global namespace — exec with a single dict makes
    the module frame's `f_locals` be `f_globals`;
  * the `sys.settrace` line hook (`trace_function`), which fires
    immediately before each executed line and, for every tracked name not
    starting with `_`, stores a `DisplayValue` produced by
    `_format_value_for_display` (deep copies for scalars and lists, and,
    for objects with `__iter__` and `__next__`, a string built after
    draining the live object with `list(value)`);
  * `_prepare_execution_trace`, `step`, `reset` and `get_state` of
    `StepDebugger` (the second pass of `_prepare_execution_trace` over
    `executed_lines` is dead code — `executed_lines` is never populated —
    and is therefore omitted);
  * the AST walker of `extract_assigned_variables`.

Machine integers do not occur (Python ints are unbounded, modelled as
`Int`); the interpreter is total via an explicit fuel parameter, with fuel
exhaustion (`Outcome.timeout`) standing for a run that has not finished —
the source installs no budget of any kind.
-/

/-- Python runtime errors raised by the constructs the embedding covers.
`msg` renders `str(e)` as used by `print(f"Execution error during trace: {e}")`. -/
inductive PyErr
  | zeroDivision
  | stopIteration
  | nameError (x : String)
  | typeError
deriving Repr, DecidableEq

/-- Rendering of `str(e)` for the errors above; `str(StopIteration())` is `""`. -/
def PyErr.msg : PyErr → String
  | .zeroDivision => "division by zero"
  | .stopIteration => ""
  | .nameError x => "name '" ++ x ++ "' is not defined"
  | .typeError => "unsupported operand type"

/-- Immutable scalar values (floats are exact rationals; the claims never
evaluate a successful float operation, the variant only keeps `/` total). -/
inductive ScalarVal
  | intS (n : Int)
  | boolS (b : Bool)
  | floatS (q : Rat)
deriving Repr, DecidableEq

/-- Heap objects: lists hold their elements, iterators hold their remaining
elements together with `type(value).__name__`.  The embedding restricts list
elements to scalars (every list in the claims' scripts is a flat list of
ints), which keeps deep copies structural. -/
inductive Cell
  | listC (elems : List ScalarVal)
  | iterC (tyName : String) (remaining : List ScalarVal)
deriving Repr, DecidableEq

/-- Runtime values: immutable scalars, or references into the heap. -/
inductive Value
  | intV (n : Int)
  | boolV (b : Bool)
  | floatV (q : Rat)
  | refV (addr : Nat)
deriving Repr, DecidableEq

/-- What `_format_value_for_display` stores in a snapshot: a deep copy of a
scalar, a deep copy of a list, or the f-string built for an iterator. -/
inductive DisplayValue
  | scalarD (v : ScalarVal)
  | listD (elems : List ScalarVal)
  | strD (s : String)
deriving Repr, DecidableEq

/-- One entry of `execution_trace`: the dict
`{'line': …, 'locals': …, 'scope_info': …, 'output': …}`. -/
structure Snapshot where
  line : Nat
  locals : List (String × DisplayValue)
  scope_info : List (String × String)
  output : String
deriving Repr, DecidableEq

/-- Python `repr` of a scalar. -/
def ScalarVal.pyRepr : ScalarVal → String
  | .intS n => toString n
  | .boolS true => "True"
  | .boolS false => "False"
  | .floatS q => toString q

/-- Concatenation with a separator (kernel-friendly `", ".join`). -/
def joinSep (sep : String) : List String → String
  | [] => ""
  | [s] => s
  | s :: t :: rest => s ++ sep ++ joinSep sep (t :: rest)

/-- Python `repr` of a list of scalars, e.g. `[1, 2, 3]`. -/
def pyReprList (es : List ScalarVal) : String :=
  "[" ++ joinSep ", " (es.map ScalarVal.pyRepr) ++ "]"

/-- The heap: object addresses are indices. -/
abbrev Heap := List Cell

/-- Read a heap cell. -/
def heapGet (h : Heap) (a : Nat) : Option Cell := h.get? a

/-- Overwrite a heap cell in place (the mutation of a live Python object). -/
def heapSet (h : Heap) (a : Nat) (c : Cell) : Heap := h.set a c

/-- Allocate a fresh object. -/
def heapAlloc (h : Heap) (c : Cell) : Heap × Nat := (h ++ [c], h.length)

/-- The global namespace: a Python dict, i.e. insertion-ordered with
in-place update of existing keys. -/
abbrev Globals := List (String × Value)

/-- Dict lookup. -/
def dictGet : Globals → String → Option Value
  | [], _ => none
  | (k, v) :: rest, x => if k = x then some v else dictGet rest x

/-- Dict assignment: update in place, else append (insertion order). -/
def dictSet : Globals → String → Value → Globals
  | [], x, v => [(x, v)]
  | (k, w) :: rest, x, v =>
      if k = x then (k, v) :: rest else (k, w) :: dictSet rest x v

/-- Python `k.startswith('_')`. -/
def pyStartsUnderscore (s : String) : Bool :=
  match s.data with
  | [] => false
  | c :: _ => c == '_'

/-- Truthiness of `self.lines[line_no].strip()`: the line holds at least one
non-whitespace character. -/
def pyLineHasCode (s : String) : Bool :=
  s.data.any (fun c => !c.isWhitespace)

/-- Python `str.splitlines` (used by `step` for `output_lines`). -/
def splitLinesAux : List Char → List Char → List (List Char)
  | [], acc => if acc.isEmpty then [] else [acc.reverse]
  | c :: rest, acc =>
      if c = '\n' then acc.reverse :: splitLinesAux rest []
      else splitLinesAux rest (c :: acc)

/-- Python `str.splitlines` on a `String`. -/
def pySplitlines (s : String) : List String :=
  (splitLinesAux s.data []).map (fun l => String.mk l)

/-- Embedding of `StepDebugger._format_value_for_display`.  Scalars and lists
are deep-copied (`copy.deepcopy`); a value with `__iter__` and `__next__`
falls into the iterator branch, where `items = list(value)` drains the live
object (mutating the heap) and an f-string `f"{type(value).__name__}({items})"`
is returned.  The `zip` / `enumerate` / `map` / `filter` special cases of the
source produce exactly the same f-string, so the generic branch covers them. -/
def formatValueForDisplay (h : Heap) (v : Value) : DisplayValue × Heap :=
  match v with
  | .intV n => (.scalarD (.intS n), h)
  | .boolV b => (.scalarD (.boolS b), h)
  | .floatV q => (.scalarD (.floatS q), h)
  | .refV a =>
      match heapGet h a with
      | some (.listC es) => (.listD es, h)
      | some (.iterC ty rem) =>
          (.strD (ty ++ "(" ++ pyReprList rem ++ ")"), heapSet h a (.iterC ty []))
      | none => (.strD "<object>", h)

/-- The variable-collection loop of `trace_function`: iterate the namespace in
insertion order keeping `k in self.varnames and not k.startswith('_')`, and
format each kept value (threading the heap, since formatting an iterator
mutates it).  At module level `frame.f_locals is frame.f_globals`, so the
scope label is always `'global'` and the second loop over `frame.f_globals`
adds nothing (`k not in all_vars` fails for every key). -/
def buildVarsFold (varnames : List String) :
    List (String × Value) → Heap →
    List (String × DisplayValue) × List (String × String) × Heap
  | [], h => ([], [], h)
  | (k, v) :: rest, h =>
      if varnames.contains k && !pyStartsUnderscore k then
        let fv := formatValueForDisplay h v
        let r := buildVarsFold varnames rest fv.2
        ((k, fv.1) :: r.1, (k, "global") :: r.2.1, r.2.2)
      else
        buildVarsFold varnames rest h

/-- The mutable state of one tracing pass: heap, namespace, the
`captured_output` buffer, and the `execution_trace` built so far. -/
structure TState where
  heap : Heap
  globals : Globals
  buffer : String
  tr : List Snapshot
deriving Repr, DecidableEq

/-- Embedding of one `'line'` event of `trace_function`: if the (0-based)
line number is in range and the source line is non-blank, capture the tracked
bindings and append a snapshot whose `output` is `captured_output.getvalue()`. -/
def hookFire (lines varnames : List String) (lineNo : Nat) (st : TState) : TState :=
  match lines.get? lineNo with
  | none => st
  | some src =>
      if pyLineHasCode src then
        let r := buildVarsFold varnames st.globals st.heap
        { st with
          heap := r.2.2,
          tr := st.tr ++ [{ line := lineNo, locals := r.1, scope_info := r.2.1,
                            output := st.buffer }] }
      else st

/-- Expressions of the embedded script language. -/
inductive Expr
  | intLit (n : Int)
  | boolLit (b : Bool)
  | name (x : String)
  | listLit (ns : List Int)
  | sumE (e : Expr)
  | iterE (e : Expr)
  | nextE (e : Expr)
  | listE (e : Expr)
  | divE (a b : Expr)
deriving Repr

/-- Sum of a list of Python ints (`sum` over anything else is out of the
claims' scripts and reported as a TypeError). -/
def sumInts : List ScalarVal → Option Int
  | [] => some 0
  | .intS n :: rest => (sumInts rest).map (fun m => n + m)
  | _ :: _ => none

/-- View of a value as a number for `/` (Python bools are ints). -/
def valueToNum : Value → Option Rat
  | .intV n => some (n : Rat)
  | .boolV b => some (if b then 1 else 0)
  | .floatV q => some q
  | .refV _ => none

/-- View of a value as a scalar (list elements in the embedding are scalars). -/
def valueToScalar : Value → Option ScalarVal
  | .intV n => some (.intS n)
  | .boolV b => some (.boolS b)
  | .floatV q => some (.floatS q)
  | .refV _ => none

/-- A scalar as a value (result of `next`). -/
def scalarToValue : ScalarVal → Value
  | .intS n => .intV n
  | .boolS b => .boolV b
  | .floatS q => .floatV q

/-- Evaluation of an expression: may allocate or mutate heap objects
(`iter`, `next`, `list`) and may raise. -/
def evalExpr (g : Globals) : Expr → Heap → Except PyErr (Value × Heap)
  | .intLit n, h => .ok (.intV n, h)
  | .boolLit b, h => .ok (.boolV b, h)
  | .name x, h =>
      match dictGet g x with
      | some v => .ok (v, h)
      | none => .error (.nameError x)
  | .listLit ns, h =>
      let (h1, a) := heapAlloc h (.listC (ns.map ScalarVal.intS))
      .ok (.refV a, h1)
  | .sumE e, h => do
      let (v, h1) ← evalExpr g e h
      match v with
      | .refV a =>
          match heapGet h1 a with
          | some (.listC es) =>
              match sumInts es with
              | some n => .ok (.intV n, h1)
              | none => .error .typeError
          | _ => .error .typeError
      | _ => .error .typeError
  | .iterE e, h => do
      let (v, h1) ← evalExpr g e h
      match v with
      | .refV a =>
          match heapGet h1 a with
          | some (.listC es) =>
              let (h2, b) := heapAlloc h1 (.iterC "list_iterator" es)
              .ok (.refV b, h2)
          | some (.iterC _ _) => .ok (.refV a, h1)
          | none => .error .typeError
      | _ => .error .typeError
  | .nextE e, h => do
      let (v, h1) ← evalExpr g e h
      match v with
      | .refV a =>
          match heapGet h1 a with
          | some (.iterC ty (w :: rest)) =>
              .ok (scalarToValue w, heapSet h1 a (.iterC ty rest))
          | some (.iterC _ []) => .error .stopIteration
          | _ => .error .typeError
      | _ => .error .typeError
  | .listE e, h => do
      let (v, h1) ← evalExpr g e h
      match v with
      | .refV a =>
          match heapGet h1 a with
          | some (.listC es) =>
              let (h2, b) := heapAlloc h1 (.listC es)
              .ok (.refV b, h2)
          | some (.iterC ty rem) =>
              let h2 := heapSet h1 a (.iterC ty [])
              let (h3, b) := heapAlloc h2 (.listC rem)
              .ok (.refV b, h3)
          | none => .error .typeError
      | _ => .error .typeError
  | .divE e1 e2, h => do
      let (v1, h1) ← evalExpr g e1 h
      let (v2, h2) ← evalExpr g e2 h1
      match valueToNum v1, valueToNum v2 with
      | some q1, some q2 =>
          if q2 = 0 then .error .zeroDivision else .ok (.floatV (q1 / q2), h2)
      | _, _ => .error .typeError

/-- Python truthiness for `while` conditions. -/
def truthy (h : Heap) : Value → Bool
  | .boolV b => b
  | .intV n => n != 0
  | .floatV q => q != 0
  | .refV a =>
      match heapGet h a with
      | some (.listC es) => !es.isEmpty
      | some (.iterC _ _) => true
      | none => true

/-- Python `str` of a value, as `print` renders it. -/
def strOfValue (h : Heap) : Value → String
  | .intV n => toString n
  | .boolV true => "True"
  | .boolV false => "False"
  | .floatV q => toString q
  | .refV a =>
      match heapGet h a with
      | some (.listC es) => pyReprList es
      | some (.iterC ty _) => "<" ++ ty ++ " object>"
      | none => "<object>"

/-- Statements of the embedded script language, each tagged (in a program)
with the 0-based source line it starts on. -/
inductive Stmt
  | assign (x : String) (e : Expr)
  | printS (e : Expr)
  | exprStmt (e : Expr)
  | appendS (x : String) (e : Expr)
  | passS
  | whileS (cond : Expr) (body : List (Nat × Stmt))

/-- Append to the `captured_output` buffer (a `print` into the redirected
`sys.stdout`, which only ever grows). -/
def emit (s : String) (st : TState) : TState :=
  { st with buffer := st.buffer ++ s }

/-- Outcome of one traced execution: completed, aborted by an exception
(caught by `_prepare_execution_trace`), or still running when the fuel ran
out — the source has no budget, so `timeout` models a run that has not
finished yet. -/
inductive Outcome
  | done (st : TState)
  | errOut (st : TState) (e : PyErr)
  | timeout (st : TState)
deriving Repr, DecidableEq

/-- The state carried by an outcome. -/
def Outcome.state : Outcome → TState
  | .done st => st
  | .errOut st _ => st
  | .timeout st => st

/-- Whether the run was cut off by fuel exhaustion (still running). -/
def Outcome.isTimeout : Outcome → Bool
  | .timeout _ => true
  | _ => false

/-- The traced execution pass: before every statement the `'line'` event of
`trace_function` fires (`hookFire`), then the statement executes; a `while`
re-fires the event on its header line at each iteration, as CPython does.
An uncaught exception aborts the pass with the state as of the failing
statement's hook. -/
def run (lines varnames : List String) :
    Nat → List (Nat × Stmt) → TState → Outcome
  | 0, _, st => .timeout st
  | _ + 1, [], st => .done st
  | fuel + 1, (ln, s) :: rest, st0 =>
    let st := hookFire lines varnames ln st0
    match s with
    | .passS => run lines varnames fuel rest st
    | .assign x e =>
        match evalExpr st.globals e st.heap with
        | .error pe => .errOut st pe
        | .ok (v, h1) =>
            run lines varnames fuel rest
              { st with heap := h1, globals := dictSet st.globals x v }
    | .printS e =>
        match evalExpr st.globals e st.heap with
        | .error pe => .errOut st pe
        | .ok (v, h1) =>
            run lines varnames fuel rest
              (emit (strOfValue h1 v ++ "\n") { st with heap := h1 })
    | .exprStmt e =>
        match evalExpr st.globals e st.heap with
        | .error pe => .errOut st pe
        | .ok (_, h1) => run lines varnames fuel rest { st with heap := h1 }
    | .appendS x e =>
        match evalExpr st.globals e st.heap with
        | .error pe => .errOut st pe
        | .ok (v, h1) =>
            match dictGet st.globals x with
            | some (.refV a) =>
                match heapGet h1 a, valueToScalar v with
                | some (.listC es), some sv =>
                    run lines varnames fuel rest
                      { st with heap := heapSet h1 a (.listC (es ++ [sv])) }
                | _, _ => .errOut st .typeError
            | some _ => .errOut st .typeError
            | none => .errOut st (.nameError x)
    | .whileS c body =>
        match evalExpr st.globals c st.heap with
        | .error pe => .errOut st pe
        | .ok (v, h1) =>
            let st1 := { st with heap := h1 }
            if truthy h1 v then
              run lines varnames fuel (body ++ (ln, .whileS c body) :: rest) st1
            else
              run lines varnames fuel rest st1

/-- The fresh state of one pass: empty `temp_globals`, fresh `StringIO`,
empty `execution_trace`. -/
def initTState : TState := { heap := [], globals := [], buffer := "", tr := [] }

/-- Embedding of `_prepare_execution_trace` (its live first pass; the second
pass over `executed_lines` is dead code since `executed_lines` stays empty).
Returns the trace and the final content of the local `captured_output`
buffer, which the source then discards — on an exception the handler prints
`f"Execution error during trace: {e}"` into that buffer, after every
snapshot has already recorded its own `getvalue()` string. -/
def prepareExecutionTrace (fuel : Nat) (lines varnames : List String)
    (prog : List (Nat × Stmt)) : List Snapshot × String :=
  match run lines varnames fuel prog initTState with
  | .done st => (st.tr, st.buffer)
  | .errOut st e =>
      (st.tr, (emit ("Execution error during trace: " ++ e.msg ++ "\n") st).buffer)
  | .timeout st => (st.tr, st.buffer)

/-- The `StepDebugger` object.  `compiled` is the result of
`compile(code, '<string>', 'exec')`: `none` models a compile error (in which
case `self.compiled_code` was never set).  `fuel` is the embedding's
execution budget (the source has none; traces of terminating scripts do not
depend on it once it is large enough). -/
structure StepDebugger where
  fuel : Nat
  lines : List String
  varnames : List String
  compiled : Option (List (Nat × Stmt))
  current_line : Int
  locals_dict : List (String × DisplayValue)
  scope_info : List (String × String)
  finished : Bool
  execution_trace : List Snapshot
  step_index : Nat
  output_lines : List String

/-- Embedding of `StepDebugger.__init__`: on compile success the trace is
prepared at once; on a compile error the message is printed to the real
`sys.stdout` (the hosting console — it reaches no field of the object) and
`finished` is set. -/
def StepDebugger.init (fuel : Nat) (lines varnames : List String)
    (compiled : Option (List (Nat × Stmt))) : StepDebugger :=
  { fuel := fuel, lines := lines, varnames := varnames, compiled := compiled,
    current_line := -1, locals_dict := [], scope_info := [],
    finished := compiled.isNone,
    execution_trace :=
      match compiled with
      | some prog => (prepareExecutionTrace fuel lines varnames prog).1
      | none => [],
    step_index := 0, output_lines := [] }

/-- Embedding of `StepDebugger.step`. -/
def StepDebugger.step (d : StepDebugger) : StepDebugger :=
  if d.finished || d.execution_trace.length ≤ d.step_index then
    { d with finished := true }
  else
    match d.execution_trace.get? d.step_index with
    | none => { d with finished := true }
    | some cur =>
        { d with
          current_line := (cur.line : Int),
          locals_dict := cur.locals,
          scope_info := cur.scope_info,
          output_lines := pySplitlines cur.output,
          step_index := d.step_index + 1,
          finished := decide (d.execution_trace.length ≤ d.step_index + 1) }

/-- Embedding of `StepDebugger.reset`: rewinds the cursor and the displayed
state and re-runs `_prepare_execution_trace`.  When the object was built
from a compile error, `self.compiled_code` does not exist: the re-run raises
`AttributeError` inside the `try`, which is caught, leaving the trace
empty — and `finished` stays `False`. -/
def StepDebugger.reset (d : StepDebugger) : StepDebugger :=
  { d with
    current_line := -1, locals_dict := [], scope_info := [],
    output_lines := [], finished := false, step_index := 0,
    execution_trace :=
      match d.compiled with
      | some prog => (prepareExecutionTrace d.fuel d.lines d.varnames prog).1
      | none => [] }

/-- The dict returned by `StepDebugger.get_state`. -/
structure PdbState where
  current_line : Int
  locals : List (String × DisplayValue)
  scope_info : List (String × String)
  output_lines : List String
  lines : List String
  finished : Bool
deriving Repr, DecidableEq

/-- Embedding of `StepDebugger.get_state` (a pure projection). -/
def StepDebugger.get_state (d : StepDebugger) : PdbState :=
  { current_line := d.current_line, locals := d.locals_dict,
    scope_info := d.scope_info, output_lines := d.output_lines,
    lines := d.lines, finished := d.finished }

/-- Iterated `step`. -/
def stepN (d : StepDebugger) : Nat → StepDebugger
  | 0 => d
  | n + 1 => stepN d.step n

/-- Assignment-target nodes of the Python AST, as `extract_assigned_variables`
distinguishes them: only `ast.Name` targets contribute; tuple/list
destructuring, attribute and subscript targets are skipped (their inner
nodes are statements of no kind, so `ast.walk` finds nothing in them). -/
inductive PyTarget
  | nameT (id : String)
  | tupleT
  | attributeT
  | subscriptT
deriving Repr, DecidableEq

/-- Statement nodes of the Python AST subset of the Extractor's contract
(assignments, augmented assignments, `for` loops, function definitions,
`while`, bare expressions).  `args` of a function definition models
`node.args.args`, the positional parameter list the source reads. -/
inductive PyStmt
  | assignS (targets : List PyTarget)
  | augAssignS (target : PyTarget)
  | forS (target : PyTarget) (body orelse : List PyStmt)
  | functionDefS (nm : String) (args : List String) (body : List PyStmt)
  | whileAst (body : List PyStmt)
  | exprP
deriving Repr

mutual

/-- Embedding of `ast.walk` from one statement node: the node itself and
every statement node nested below it (expression and target nodes are also
walked by the source, but none of them matches the four `isinstance` cases,
so they are left out of the node list). -/
def walkStmt : PyStmt → List PyStmt
  | .assignS ts => [.assignS ts]
  | .augAssignS t => [.augAssignS t]
  | .forS t b o => .forS t b o :: (walkStmts b ++ walkStmts o)
  | .functionDefS nm args b => .functionDefS nm args b :: walkStmts b
  | .whileAst b => .whileAst b :: walkStmts b
  | .exprP => [.exprP]

/-- Embedding of `ast.walk` over a list of statements. -/
def walkStmts : List PyStmt → List PyStmt
  | [] => []
  | s :: rest => walkStmt s ++ walkStmts rest

end

/-- The per-node `isinstance` cases of `extract_assigned_variables`:
simple-name targets of `ast.Assign`, a simple-name target of
`ast.AugAssign`, a simple-name target of `ast.For`, and the parameter
names of an `ast.FunctionDef`; every other node contributes nothing. -/
def extractNode : PyStmt → List String
  | .assignS ts =>
      ts.filterMap (fun t => match t with | .nameT id => some id | _ => none)
  | .augAssignS (.nameT id) => [id]
  | .augAssignS _ => []
  | .forS (.nameT id) _ _ => [id]
  | .forS _ _ _ => []
  | .functionDefS _ args _ => args
  | .whileAst _ => []
  | .exprP => []

/-- Embedding of the body of `extract_assigned_variables` on a parsed tree:
walk every node and collect the contributions into a set. -/
def extractAssignedVarsTree (tree : List PyStmt) : Finset String :=
  ((walkStmts tree).flatMap extractNode).toFinset

/-- Embedding of `extract_assigned_variables`, whose input here is the
outcome of `ast.parse`: a `SyntaxError` (`none`) yields the empty set. -/
def extract_assigned_variables : Option (List PyStmt) → Finset String
  | none => ∅
  | some tree => extractAssignedVarsTree tree

mutual

/-- Modelled from the spec: the set of names a script's statement should
contribute — simple-name targets of plain assignment, targets of augmented
assignment, the iteration variable of a `for` loop when it is a simple name
(destructuring targets silently skipped), and parameter names of function
definitions — collected over the whole (nested) script. -/
def specVarsStmt : PyStmt → Finset String
  | .assignS ts =>
      (ts.filterMap (fun t => match t with | .nameT id => some id | _ => none)).toFinset
  | .augAssignS (.nameT id) => {id}
  | .augAssignS _ => ∅
  | .forS (.nameT id) b o => insert id (specVarsStmts b ∪ specVarsStmts o)
  | .forS _ b o => specVarsStmts b ∪ specVarsStmts o
  | .functionDefS _ args b => args.toFinset ∪ specVarsStmts b
  | .whileAst b => specVarsStmts b
  | .exprP => ∅

/-- Modelled from the spec: the extracted name set of a whole script. -/
def specVarsStmts : List PyStmt → Finset String
  | [] => ∅
  | s :: rest => specVarsStmt s ∪ specVarsStmts rest

end

/-- Source lines of the tracer example script. -/
def lines1 : List String := ["a = [1,2,3]", "b = sum(a)", "print(b)"]

/-- Statements of the tracer example script. -/
def prog1 : List (Nat × Stmt) :=
  [(0, .assign "a" (.listLit [1, 2, 3])),
   (1, .assign "b" (.sumE (.name "a"))),
   (2, .printS (.name "b"))]

/-- Tracked names of the tracer example (its assignment targets). -/
def vars1 : List String := ["a", "b"]

/-- Source lines of the iterator example script. -/
def lines2 : List String := ["it = iter([1,2,3])", "first = next(it)", "rest = list(it)"]

/-- Statements of the iterator example script. -/
def prog2 : List (Nat × Stmt) :=
  [(0, .assign "it" (.iterE (.listLit [1, 2, 3]))),
   (1, .assign "first" (.nextE (.name "it"))),
   (2, .assign "rest" (.listE (.name "it")))]

/-- Tracked names of the iterator example. -/
def vars2 : List String := ["it", "first", "rest"]

/-- Source lines of the failure example script. -/
def lines3 : List String := ["x = 1", "y = x / 0", "z = 3"]

/-- Statements of the failure example script. -/
def prog3 : List (Nat × Stmt) :=
  [(0, .assign "x" (.intLit 1)),
   (1, .assign "y" (.divE (.name "x") (.intLit 0))),
   (2, .assign "z" (.intLit 3))]

/-- Tracked names of the failure example. -/
def vars3 : List String := ["x", "y", "z"]

/-- The debugger built on the failure example. -/
def dbg3 : StepDebugger := StepDebugger.init 10 lines3 vars3 (some prog3)

/-- The debugger built from a script that does not compile
(`compile` raised, `self.compiled_code` was never assigned). -/
def dbg4 : StepDebugger := StepDebugger.init 10 ["x ="] [] none

/-- Source lines of the in-place-mutation script used for Claim C7. -/
def lines7 : List String := ["xs = [1, 2]", "xs.append(3)", "print(xs)"]

/-- Statements of the in-place-mutation script. -/
def prog7 : List (Nat × Stmt) :=
  [(0, .assign "xs" (.listLit [1, 2])),
   (1, .appendS "xs" (.intLit 3)),
   (2, .printS (.name "xs"))]

/-- Tracked names of the in-place-mutation script. -/
def vars7 : List String := ["xs"]

/-- Parsed tree of the Extractor example
`x = 1` / `for y in range(3):` / `    z = y`. -/
def tree8 : List PyStmt :=
  [.assignS [.nameT "x"],
   .forS (.nameT "y") [.assignS [.nameT "z"]] []]

/-- Source lines of the non-terminating script `while True:` / `    pass`. -/
def lines9 : List String := ["while True:", "    pass"]

/-- Statements of the non-terminating script. -/
def prog9 : List (Nat × Stmt) := [(0, .whileS (.boolLit true) [(1, .passS)])]

/-- The statement list reached after unrolling one iteration of `prog9`. -/
def prog9unrolled : List (Nat × Stmt) :=
  [(1, .passS), (0, .whileS (.boolLit true) [(1, .passS)])]

/-- Source lines of the underscore-tracking script used for Claim C10. -/
def lines10 : List String := ["_x = 1", "y = 2", "z = 3"]

/-- Statements of the underscore-tracking script. -/
def prog10 : List (Nat × Stmt) :=
  [(0, .assign "_x" (.intLit 1)),
   (1, .assign "y" (.intLit 2)),
   (2, .assign "z" (.intLit 3))]

/-- Tracked names of the underscore-tracking script: the caller explicitly
supplies the underscore name `_x`. -/
def vars10 : List String := ["_x", "y"]

/-- One string extends another on the right. -/
def StrPre (a b : String) : Prop := ∃ t, a ++ t = b

/-- One list extends another on the right. -/
def ListPre {α : Type} (a b : List α) : Prop := ∃ t, a ++ t = b

/-- Adjacent snapshots have prefix-ordered `output` fields. -/
def PreChain : List Snapshot → Prop
  | [] => True
  | [_] => True
  | a :: b :: rest => StrPre a.output b.output ∧ PreChain (b :: rest)

/-- The outputs recorded in the trace so far are a prefix chain, and each is
a prefix of the current content of the `captured_output` buffer. -/
def OutOk (st : TState) : Prop :=
  PreChain st.tr ∧ ∀ s ∈ st.tr, StrPre s.output st.buffer

/-- No underscore-initial key appears in the snapshot. -/
def CleanSnap (s : Snapshot) : Prop :=
  (∀ p ∈ s.locals, pyStartsUnderscore p.1 = false)
  ∧ (∀ p ∈ s.scope_info, pyStartsUnderscore p.1 = false)

/-- No underscore-initial key appears in any snapshot of the trace. -/
def CleanTrace (tr : List Snapshot) : Prop := ∀ s ∈ tr, CleanSnap s

/-- How one tracing step may change the state: the trace is only appended to,
the output buffer only grows, and the two invariants are preserved. -/
def Evolve (a b : TState) : Prop :=
  ListPre a.tr b.tr ∧ StrPre a.buffer b.buffer
  ∧ (OutOk a → OutOk b) ∧ (CleanTrace a.tr → CleanTrace b.tr)

/-- The debugger built on the tracer example script. -/
def dbg1 : StepDebugger := StepDebugger.init 10 lines1 vars1 (some prog1)

/-- A debugger whose script compiles to an empty statement list: its trace
is empty. -/
def dbgEmpty : StepDebugger := StepDebugger.init 10 [] [] (some [])

/-- The snapshot recorded before line 3 of the underscore-tracking script. -/
def wSnap10 : Snapshot :=
  { line := 2, locals := [("y", DisplayValue.scalarD (ScalarVal.intS 2))],
    scope_info := [("y", "global")], output := "" }

theorem strPre_refl (a : String) : StrPre a a := ⟨"", String.append_empty a⟩

theorem strPre_trans {a b c : String} (h1 : StrPre a b) (h2 : StrPre b c) :
    StrPre a c := by
  obtain ⟨t1, rfl⟩ := h1
  obtain ⟨t2, rfl⟩ := h2
  exact ⟨t1 ++ t2, (String.append_assoc a t1 t2).symm⟩

theorem strPre_push {a b : String} (m : String) (h : StrPre a b) :
    StrPre a (b ++ m) :=
  strPre_trans h ⟨m, rfl⟩

theorem listPre_refl {α : Type} (a : List α) : ListPre a a := ⟨[], by simp⟩

theorem listPre_trans {α : Type} {a b c : List α}
    (h1 : ListPre a b) (h2 : ListPre b c) : ListPre a c := by
  obtain ⟨t1, rfl⟩ := h1
  obtain ⟨t2, rfl⟩ := h2
  exact ⟨t1 ++ t2, by simp⟩

theorem preChain_append_one {tr : List Snapshot} {y : Snapshot}
    (h : PreChain tr) (hall : ∀ s ∈ tr, StrPre s.output y.output) :
    PreChain (tr ++ [y]) := by
  induction tr with
  | nil => exact trivial
  | cons a rest ih =>
      cases rest with
      | nil => exact ⟨hall a (by simp), trivial⟩
      | cons b rest2 =>
          exact ⟨h.1, ih h.2 (fun s hs => hall s (by simp [hs]))⟩

theorem preChain_get :
    ∀ (tr : List Snapshot), PreChain tr → ∀ (i : Nat) (s1 s2 : Snapshot),
      tr.get? i = some s1 → tr.get? (i + 1) = some s2 →
      StrPre s1.output s2.output := by
  intro tr
  induction tr with
  | nil => intro _ i s1 s2 h1 _; simp at h1
  | cons a rest ih =>
      intro hc i s1 s2 h1 h2
      cases rest with
      | nil =>
          cases i with
          | zero => simp at h2
          | succ j => simp at h1
      | cons b rest2 =>
          cases i with
          | zero =>
              simp at h1 h2
              cases h2 with
              | refl => cases h1; exact hc.1
          | succ j =>
              exact ih hc.2 j s1 s2 h1 h2

theorem evolve_refl (a : TState) : Evolve a a :=
  ⟨listPre_refl _, strPre_refl _, id, id⟩

theorem evolve_trans {a b c : TState} (h1 : Evolve a b) (h2 : Evolve b c) :
    Evolve a c :=
  ⟨listPre_trans h1.1 h2.1, strPre_trans h1.2.1 h2.2.1,
   fun h => h2.2.2.1 (h1.2.2.1 h), fun h => h2.2.2.2 (h1.2.2.2 h)⟩

theorem evolve_update {a b : TState} (htr : b.tr = a.tr)
    (hbuf : b.buffer = a.buffer) : Evolve a b := by
  refine ⟨?_, ?_, ?_, ?_⟩
  · rw [htr]; exact listPre_refl _
  · rw [hbuf]; exact strPre_refl _
  · intro h
    constructor
    · rw [htr]; exact h.1
    · rw [htr, hbuf]; exact h.2
  · rw [htr]; exact id

theorem evolve_emit (m : String) (st : TState) : Evolve st (emit m st) := by
  refine ⟨listPre_refl _, ⟨m, rfl⟩, ?_, id⟩
  intro h
  exact ⟨h.1, fun s hs => strPre_push m (h.2 s hs)⟩

theorem evolve_fields (a : TState) (h : Heap) (g : Globals) :
    Evolve a { heap := h, globals := g, buffer := a.buffer, tr := a.tr } :=
  evolve_update rfl rfl

theorem buildVarsFold_clean (varnames : List String) :
    ∀ (g : List (String × Value)) (h : Heap),
      (∀ p ∈ (buildVarsFold varnames g h).1, pyStartsUnderscore p.1 = false)
      ∧ (∀ p ∈ (buildVarsFold varnames g h).2.1, pyStartsUnderscore p.1 = false) := by
  intro g
  induction g with
  | nil => intro h; simp [buildVarsFold]
  | cons kv rest ih =>
      intro h
      obtain ⟨k, v⟩ := kv
      by_cases hc : (varnames.contains k && !pyStartsUnderscore k) = true
      · have hc2 := hc
        simp only [Bool.and_eq_true, Bool.not_eq_true'] at hc2
        simp only [buildVarsFold, hc, if_true]
        constructor
        · intro p hp
          rcases List.mem_cons.1 hp with rfl | hmem
          · exact hc2.2
          · exact (ih _).1 p hmem
        · intro p hp
          rcases List.mem_cons.1 hp with rfl | hmem
          · exact hc2.2
          · exact (ih _).2 p hmem
      · simp only [buildVarsFold, hc, if_false]
        exact ih h

theorem evolve_hook (lines varnames : List String) (ln : Nat) (st : TState) :
    Evolve st (hookFire lines varnames ln st) := by
  unfold hookFire
  cases hl : lines.get? ln with
  | none => exact evolve_refl st
  | some src =>
      by_cases hc : pyLineHasCode src = true
      · simp only [hc, if_true]
        refine ⟨⟨[_], rfl⟩, strPre_refl _, ?_, ?_⟩
        · rintro ⟨hch, hb⟩
          constructor
          · exact preChain_append_one hch (fun s hs => hb s hs)
          · intro s hs
            rcases List.mem_append.1 hs with hmem | hnew
            · exact hb s hmem
            · rcases List.mem_singleton.1 hnew with rfl
              exact strPre_refl _
        · intro hclean s hs
          rcases List.mem_append.1 hs with hmem | hnew
          · exact hclean s hmem
          · rcases List.mem_singleton.1 hnew with rfl
            exact ⟨(buildVarsFold_clean varnames st.globals st.heap).1,
                   (buildVarsFold_clean varnames st.globals st.heap).2⟩
      · simp only [hc, if_false]
        exact evolve_refl st

theorem run_evolve (lines varnames : List String) :
    ∀ (fuel : Nat) (stmts : List (Nat × Stmt)) (st : TState),
      Evolve st (Outcome.state (run lines varnames fuel stmts st)) := by
  intro fuel
  induction fuel with
  | zero => intro stmts st; exact evolve_refl st
  | succ fuel ih =>
      intro stmts st
      cases stmts with
      | nil => exact evolve_refl st
      | cons hd rest =>
          obtain ⟨ln, s⟩ := hd
          have hk : Evolve st (hookFire lines varnames ln st) :=
            evolve_hook lines varnames ln st
          cases s <;> simp only [run] <;> repeat' split
          all_goals
            first
            | exact hk
            | (refine evolve_trans hk (evolve_trans ?_ (ih _ _))
               first
               | exact evolve_refl _
               | exact evolve_fields _ _ _
               | exact evolve_trans (evolve_fields _ _ _) (evolve_emit _ _))

theorem initTState_OutOk : OutOk initTState := by
  constructor
  · exact trivial
  · intro s hs
    simp [initTState] at hs

theorem prepare_tr_eq (fuel : Nat) (lines varnames : List String)
    (prog : List (Nat × Stmt)) :
    (prepareExecutionTrace fuel lines varnames prog).1 =
      (Outcome.state (run lines varnames fuel prog initTState)).tr := by
  unfold prepareExecutionTrace
  cases run lines varnames fuel prog initTState <;> rfl

theorem prepare_OutOk (fuel : Nat) (lines varnames : List String)
    (prog : List (Nat × Stmt)) :
    OutOk (Outcome.state (run lines varnames fuel prog initTState)) :=
  (run_evolve lines varnames fuel prog initTState).2.2.1 initTState_OutOk

theorem prepare_clean (fuel : Nat) (lines varnames : List String)
    (prog : List (Nat × Stmt)) :
    CleanTrace (Outcome.state (run lines varnames fuel prog initTState)).tr :=
  (run_evolve lines varnames fuel prog initTState).2.2.2
    (by intro s hs; simp [initTState] at hs)

theorem step_finished_id (d : StepDebugger) (hf : d.finished = true) :
    d.step = d := by
  unfold StepDebugger.step
  rw [hf]
  simp only [Bool.true_or, if_true]
  cases d
  simp at hf
  subst hf
  rfl

theorem stepN_finished_id (d : StepDebugger) (hf : d.finished = true) :
    ∀ n : Nat, stepN d n = d := by
  intro n
  induction n generalizing d with
  | zero => rfl
  | succ m ih =>
      show stepN d.step m = d
      rw [step_finished_id d hf]
      exact ih d hf

theorem step_advance (d : StepDebugger) (hf : d.finished = false)
    (hlt : d.step_index < d.execution_trace.length) :
    d.step.execution_trace = d.execution_trace
    ∧ d.step.step_index = d.step_index + 1
    ∧ d.step.finished = decide (d.execution_trace.length ≤ d.step_index + 1) := by
  unfold StepDebugger.step
  rw [hf]
  simp only [Bool.false_or]
  rw [if_neg (by simpa using Nat.not_le.2 hlt)]
  cases hg : d.execution_trace.get? d.step_index with
  | none =>
      rw [List.get?_eq_none] at hg
      omega
  | some cur => exact ⟨rfl, rfl, rfl⟩

theorem step_countdown_finishes :
    ∀ (n : Nat) (d : StepDebugger), d.finished = false →
      d.step_index + n = d.execution_trace.length → 0 < n →
      (stepN d n).finished = true := by
  intro n
  induction n with
  | zero => intro d _ _ hpos; exact absurd hpos (by omega)
  | succ m ih =>
      intro d hf hsum _
      have hlt : d.step_index < d.execution_trace.length := by omega
      have hadv := step_advance d hf hlt
      show (stepN d.step m).finished = true
      cases m with
      | zero =>
          show d.step.finished = true
          rw [hadv.2.2]
          simp
          omega
      | succ m2 =>
          apply ih d.step
          · rw [hadv.2.2]
            simp
            omega
          · rw [hadv.1, hadv.2.1]
            omega
          · omega

theorem extract_spec_stmt :
    ∀ s : PyStmt, ((walkStmt s).flatMap extractNode).toFinset = specVarsStmt s := by
  intro s0
  refine walkStmt.induct
    (fun s => ((walkStmt s).flatMap extractNode).toFinset = specVarsStmt s)
    (fun l => ((walkStmts l).flatMap extractNode).toFinset = specVarsStmts l)
    ?_ ?_ ?_ ?_ ?_ ?_ ?_ ?_ s0
  · intro ts
    simp [walkStmt, extractNode, specVarsStmt]
  · intro t
    cases t <;> simp [walkStmt, extractNode, specVarsStmt]
  · intro t b o ihb iho
    cases t <;>
      simp [walkStmt, extractNode, specVarsStmt, List.flatMap_append,
            List.toFinset_append, ihb, iho, Finset.insert_eq, Finset.union_assoc]
  · intro nm args b ihb
    simp [walkStmt, extractNode, specVarsStmt, List.flatMap_append,
          List.toFinset_append, ihb]
  · intro b ihb
    simp [walkStmt, extractNode, specVarsStmt, List.flatMap_append,
          List.toFinset_append, ihb]
  · simp [walkStmt, extractNode, specVarsStmt]
  · simp [walkStmts, specVarsStmts]
  · intro s rest ih1 ih2
    simp [walkStmts, List.flatMap_append, List.toFinset_append, ih1, ih2,
          specVarsStmts]

theorem extract_spec_list :
    ∀ l : List PyStmt,
      ((walkStmts l).flatMap extractNode).toFinset = specVarsStmts l := by
  intro l
  induction l with
  | nil => simp [walkStmts, specVarsStmts]
  | cons s rest ih =>
      simp [walkStmts, List.flatMap_append, List.toFinset_append,
            extract_spec_stmt s, ih, specVarsStmts]

theorem while_true_never_finishes :
    ∀ (fuel : Nat) (st : TState),
      (run lines9 [] fuel prog9 st).isTimeout = true
      ∧ (run lines9 [] fuel prog9unrolled st).isTimeout = true := by
  intro fuel
  induction fuel with
  | zero => intro st; exact ⟨rfl, rfl⟩
  | succ fuel ih =>
      intro st
      constructor
      · show (run lines9 [] (fuel + 1) prog9 st).isTimeout = true
        simp only [prog9, run, evalExpr, truthy, if_true]
        exact (ih _).2
      · show (run lines9 [] (fuel + 1) prog9unrolled st).isTimeout = true
        simp only [prog9unrolled, run, evalExpr, truthy, if_true]
        exact (ih _).1

/-- Claim C1 (counterexample): for `a = [1,2,3]` / `b = sum(a)` / `print(b)`
with tracked names `a`, `b`, the trace does have 3 entries, but entry 0
binds nothing — `a` is absent where the claim requires it bound — and no
entry's cumulative output is `"6\n"`: every `output` field is `""`. -/
theorem c1_counterexample :
    ((prepareExecutionTrace 10 lines1 vars1 prog1).1.map
        (fun s => s.locals.map Prod.fst)) = [[], ["a"], ["a", "b"]]
    ∧ ((prepareExecutionTrace 10 lines1 vars1 prog1).1.map Snapshot.output) =
        ["", "", ""] := by
  constructor <;> decide

/-- Claim C1 (amended): the instrumentation hook fires immediately before
each executed statement, so the trace of `a = [1,2,3]` / `b = sum(a)` /
`print(b)` has exactly 3 entries in which entry 0 shows neither name bound,
entry 1 shows `a` bound and `b` absent, entry 2 shows both bound, and every
entry's cumulative output is `""` — the `"6\n"` printed by line 3 reaches
only the capture buffer, after the last snapshot was taken. -/
theorem c1_trace_entries_shifted :
    prepareExecutionTrace 10 lines1 vars1 prog1 =
      ([{ line := 0, locals := [], scope_info := [], output := "" },
        { line := 1,
          locals := [("a", .listD [.intS 1, .intS 2, .intS 3])],
          scope_info := [("a", "global")], output := "" },
        { line := 2,
          locals := [("a", .listD [.intS 1, .intS 2, .intS 3]),
                     ("b", .scalarD (.intS 6))],
          scope_info := [("a", "global"), ("b", "global")], output := "" }],
       "6\n") := by
  decide

/-- Claim C2 (counterexample): for `it = iter([1,2,3])` / `first = next(it)`
/ `rest = list(it)` the run aborts with `StopIteration` on line 2 — the
snapshot hook drained the live iterator (the final heap holds the iterator
with no remaining elements), so the later `next` call does NOT behave as if
the inspection never touched the object, and `first` is never bound. -/
theorem c2_counterexample :
    run lines2 vars2 10 prog2 initTState =
      Outcome.errOut
        { heap := [Cell.listC [.intS 1, .intS 2, .intS 3],
                   Cell.iterC "list_iterator" []],
          globals := [("it", Value.refV 1)], buffer := "",
          tr := [{ line := 0, locals := [], scope_info := [], output := "" },
                 { line := 1,
                   locals := [("it", .strD "list_iterator([1, 2, 3])")],
                   scope_info := [("it", "global")], output := "" }] }
        PyErr.stopIteration := by
  decide

/-- Claim C2 (amended): the snapshot taken right after `it` is created does
store a materialized `[1, 2, 3]` view tagged with the iterator's type name
(`list_iterator([1, 2, 3])`) rather than a live reference — but the
materialization itself drains the one underlying object, so `first = next(it)`
raises `StopIteration`, the trace stops at 2 entries, and the names `first`
and `rest` are bound in no snapshot. -/
theorem c2_iterator_materialized_but_drained :
    (((prepareExecutionTrace 10 lines2 vars2 prog2).1.get? 1).map
        (fun s => s.locals)) =
      some [("it", DisplayValue.strD "list_iterator([1, 2, 3])")]
    ∧ (prepareExecutionTrace 10 lines2 vars2 prog2).1.length = 2
    ∧ (∀ s ∈ (prepareExecutionTrace 10 lines2 vars2 prog2).1,
        ∀ p ∈ s.locals, p.1 ≠ "first" ∧ p.1 ≠ "rest")
    ∧ (prepareExecutionTrace 10 lines2 vars2 prog2).2 =
        "Execution error during trace: \n" := by
  refine ⟨by decide, by decide, by decide, by decide⟩

/-- Claim C3 (counterexample): for `x = 1` / `y = x / 0` / `z = 3` the
debugger is NOT marked finished after the failing run, and the second
entry's output is the empty string — it contains no division-by-zero
message (every snapshot's output is `""`). -/
theorem c3_counterexample :
    dbg3.finished = false
    ∧ dbg3.execution_trace.map Snapshot.output = ["", ""] := by
  constructor <;> decide

/-- Claim C3 (amended): for `x = 1` / `y = x / 0` / `z = 3` the trace holds
exactly the 2 snapshots captured up to the failing line and no exception
escapes, but the error message is printed into the capture buffer only
after the final snapshot recorded its output (so no snapshot contains it,
and the buffer itself is discarded), and `finished` stays false until
stepping exhausts the trace. -/
theorem c3_partial_trace_error_discarded :
    dbg3.execution_trace.length = 2
    ∧ dbg3.execution_trace.map Snapshot.output = ["", ""]
    ∧ (prepareExecutionTrace 10 lines3 vars3 prog3).2 =
        "Execution error during trace: division by zero\n"
    ∧ dbg3.finished = false
    ∧ (stepN dbg3 2).finished = true := by
  refine ⟨by decide, by decide, by decide, by decide, by decide⟩

/-- Claim C4 (counterexample): after a compile error the run is finished,
but the caller's initial `reset()` sets `finished` back to false — it does
not stay finished. -/
theorem c4_counterexample : (dbg4.reset).finished = false := by decide

/-- Claim C4 (amended): on a compile error the trace is empty and the run is
immediately finished, but the compile error text is printed to the hosting
console and never reaches the state the caller reads (`get_state` exposes no
output), and the caller's initial `reset()` clears `finished` back to false,
leaving an empty trace (re-preparation fails on the missing
`compiled_code` attribute and is swallowed). -/
theorem c4_compile_error_trace :
    dbg4.execution_trace = [] ∧ dbg4.finished = true
    ∧ dbg4.get_state.output_lines = []
    ∧ (dbg4.reset).finished = false
    ∧ (dbg4.reset).execution_trace = [] := by
  refine ⟨by decide, by decide, by decide, by decide, by decide⟩

/-- Claim C5: for every script, tracked-name set and budget, the
`output` fields of consecutive snapshots of the trace built by one
execution pass form a prefix chain: snapshot `i`'s cumulative output is a
string prefix of snapshot `i+1`'s. -/
theorem c5_outputSoFar_prefix_chain (fuel : Nat) (lines varnames : List String)
    (prog : List (Nat × Stmt)) (i : Nat) (s1 s2 : Snapshot)
    (h1 : (prepareExecutionTrace fuel lines varnames prog).1.get? i = some s1)
    (h2 : (prepareExecutionTrace fuel lines varnames prog).1.get? (i + 1) = some s2) :
    StrPre s1.output s2.output := by
  have hok := prepare_OutOk fuel lines varnames prog
  rw [prepare_tr_eq] at h1 h2
  exact preChain_get _ hok.1 i s1 s2 h1 h2

/-- Claim C5 (witness): the prefix-chain theorem applied to entries 0 and 1
of the tracer example's trace. -/
theorem c5_witness :
    (prepareExecutionTrace 10 lines1 vars1 prog1).1.get? 0 =
      some { line := 0, locals := [], scope_info := [], output := "" }
    ∧ (prepareExecutionTrace 10 lines1 vars1 prog1).1.get? 1 =
      some { line := 1, locals := [("a", .listD [.intS 1, .intS 2, .intS 3])],
             scope_info := [("a", "global")], output := "" }
    ∧ StrPre "" "" :=
  ⟨by decide, by decide,
   c5_outputSoFar_prefix_chain 10 lines1 vars1 prog1 0
     { line := 0, locals := [], scope_info := [], output := "" }
     { line := 1, locals := [("a", .listD [.intS 1, .intS 2, .intS 3])],
       scope_info := [("a", "global")], output := "" }
     (by decide) (by decide)⟩

/-- Claim C6 (counterexample): a debugger over an empty trace is reachable
(empty script); after exactly `trace.length = 0` calls to `step()` its
`finished` flag is still false, and the first `step()` call is not a no-op:
it flips `finished` to true. -/
theorem c6_counterexample :
    dbgEmpty.execution_trace = [] ∧ dbgEmpty.finished = false
    ∧ (dbgEmpty.step).finished = true := by
  refine ⟨by decide, by decide, by decide⟩

/-- Claim C6 (amended): when `finished` is already true, `step()` is a
genuine no-op (any number of further calls leaves the whole object, hence
cursor and displayed state, unchanged); for a non-empty trace with the
cursor at the start, exactly `trace.length` calls to `step()` set
`finished`; and on an empty trace `step()` leaves every field unchanged
except that it sets `finished := true` (so it is not a pure no-op). -/
theorem c6_step_semantics :
    (∀ d : StepDebugger, d.finished = true → d.step = d)
    ∧ (∀ (d : StepDebugger) (n : Nat), d.finished = true → stepN d n = d)
    ∧ (∀ d : StepDebugger, d.finished = false → 0 < d.execution_trace.length →
        d.step_index = 0 → (stepN d d.execution_trace.length).finished = true)
    ∧ (∀ d : StepDebugger, d.finished = false → d.execution_trace = [] →
        d.step = { d with finished := true }) := by
  refine ⟨step_finished_id, fun d n hf => stepN_finished_id d hf n, ?_, ?_⟩
  · intro d hf hlen hidx
    exact step_countdown_finishes d.execution_trace.length d hf (by omega) hlen
  · intro d hf hemp
    unfold StepDebugger.step
    rw [hf, hemp]
    simp

/-- Claim C6 (witness): the step-semantics theorem applied to the tracer
example's debugger, whose trace has 3 entries. -/
theorem c6_witness :
    dbg1.finished = false ∧ 0 < dbg1.execution_trace.length
    ∧ dbg1.step_index = 0
    ∧ (stepN dbg1 dbg1.execution_trace.length).finished = true :=
  ⟨by decide, by decide, by decide,
   c6_step_semantics.2.2.1 dbg1 (by decide) (by decide) (by decide)⟩

/-- Claim C7: snapshots are immutable once recorded — during a run the trace
is only ever appended to, every already-recorded snapshot surviving verbatim
(and the stored `DisplayValue`s are by construction pure deep copies holding
no reference into the heap); concretely, for `xs = [1, 2]` / `xs.append(3)`
/ `print(xs)` the snapshot taken before line 2 still shows `[1, 2]` in the
final trace even though line 2 mutated the list in place to `[1, 2, 3]`. -/
theorem c7_snapshots_immutable :
    (∀ (fuel : Nat) (lines varnames : List String)
        (stmts : List (Nat × Stmt)) (st : TState),
        ListPre st.tr (Outcome.state (run lines varnames fuel stmts st)).tr)
    ∧ prepareExecutionTrace 10 lines7 vars7 prog7 =
        ([{ line := 0, locals := [], scope_info := [], output := "" },
          { line := 1, locals := [("xs", .listD [.intS 1, .intS 2])],
            scope_info := [("xs", "global")], output := "" },
          { line := 2, locals := [("xs", .listD [.intS 1, .intS 2, .intS 3])],
            scope_info := [("xs", "global")], output := "" }],
         "[1, 2, 3]\n") :=
  ⟨fun fuel lines varnames stmts st => (run_evolve lines varnames fuel stmts st).1,
   by decide⟩

/-- Claim C8: the Variable Extractor returns exactly the set the spec
describes — simple-name targets of plain assignments, simple-name targets
of augmented assignments, simple-name iteration variables of `for` loops
(destructuring targets silently skipped), and parameter names of function
definitions, collected over the whole nested script; a parse failure yields
the empty set; and the example `x = 1` / `for y in range(3):` / `    z = y`
extracts `{x, y, z}`. -/
theorem c8_extractor_matches_spec :
    (∀ tree : List PyStmt,
        extract_assigned_variables (some tree) = specVarsStmts tree)
    ∧ extract_assigned_variables none = ∅
    ∧ extract_assigned_variables (some tree8) = {"x", "y", "z"} := by
  refine ⟨?_, rfl, ?_⟩
  · intro tree
    exact extract_spec_list tree
  · decide

/-- Claim C9: the source enforces no iteration or wall-clock budget during
trace construction — for the script `while True:` / `    pass`, under every
finite execution budget the run is still unfinished (`timeout`, never `done`
and never an error), so trace construction hangs instead of converting
budget exhaustion into a RuntimeError-class failure. -/
theorem c9_no_budget_divergence :
    ∀ (fuel : Nat) (st : TState),
      (run lines9 [] fuel prog9 st).isTimeout = true :=
  fun fuel st => (while_true_never_finishes fuel st).1

/-- Claim C10: a tracked name beginning with an underscore never appears in
any snapshot's bindings or scope-label mapping, for every script, budget and
tracked-name list — including lists that explicitly contain underscore
names. -/
theorem c10_underscore_names_never_shown (fuel : Nat)
    (lines varnames : List String) (prog : List (Nat × Stmt)) (s : Snapshot)
    (hs : s ∈ (prepareExecutionTrace fuel lines varnames prog).1) :
    (∀ p ∈ s.locals, pyStartsUnderscore p.1 = false)
    ∧ (∀ p ∈ s.scope_info, pyStartsUnderscore p.1 = false) := by
  rw [prepare_tr_eq] at hs
  exact prepare_clean fuel lines varnames prog s hs

/-- Claim C10 (witness): the underscore theorem applied to the snapshot that
the script `_x = 1` / `y = 2` / `z = 3` records before line 3, with the
caller-supplied tracked list `["_x", "y"]` — only `y` is shown. -/
theorem c10_witness :
    wSnap10 ∈ (prepareExecutionTrace 10 lines10 vars10 prog10).1
    ∧ ((∀ p ∈ wSnap10.locals, pyStartsUnderscore p.1 = false)
       ∧ (∀ p ∈ wSnap10.scope_info, pyStartsUnderscore p.1 = false)) :=
  ⟨by decide,
   c10_underscore_names_never_shown 10 lines10 vars10 prog10 wSnap10 (by decide)⟩
